import Mathlib

/-!
A verification development for the adaptive Values-format row parser
(`ValuesBlockInputFormat.cpp`).  The parser's data model and operations are
shallowly embedded: pure routines become Lean functions over explicit state,
external collaborators (the literal deserializer, the SQL expression parser,
the constant-expression evaluator, the template cache) are supplied as data
in an environment record, and C++ exceptions become explicit error results
carrying the state at the throw point.

The file is organized as definitions first, then theorems.
-/

namespace VBF

/-- Error codes used by the format (`ErrorCodes` in the source).  `other n`
stands for any further code; the recoverable-parse-error classifier
`isParseError` lives outside this translation unit and is kept abstract
(a parameter of the functions that consult it). -/
inductive ErrCode where
  | LOGICAL_ERROR
  | SYNTAX_ERROR
  | TYPE_MISMATCH
  | SUPPORT_IS_DISABLED
  | ARGUMENT_OUT_OF_BOUND
  | CANNOT_READ_ALL_DATA
  | CANNOT_PARSE_INPUT_ASSERTION_FAILED
  | other (n : Nat)
deriving DecidableEq

/-- The per-column strategy state (`ParserType` in the source). -/
inductive ParserType where
  | Streaming
  | BatchTemplate
  | SingleExpressionEvaluation
deriving DecidableEq

/--
`ValuesBlockInputFormat::shouldDeduceNewTemplate` (lines 597-621).  The three
counters are the per-column `attempts_to_deduce_template`,
`attempts_to_deduce_template_cached` and `rows_parsed_using_template`; the
function returns whether to attempt deduction together with the (possibly
reset) counters.  `deduceEnabled` is the
`format_settings.values.deduce_templates_of_expressions` flag checked first
by the source.  The C++ `double` arithmetic is modelled exactly by `ℚ`: the
weights 1.5 and 0.5 and the threshold 100 are exactly representable, and the
comparisons performed by the source are exact for all counter magnitudes
reachable in a session.
-/
def shouldDeduceNewTemplate (deduceEnabled : Bool) (cold cached rows : Nat) :
    Bool × Nat × Nat × Nat :=
  if !deduceEnabled then (false, cold, cached, rows)
  else
    let attemptsWeighted : ℚ := 3/2 * (cold : ℚ) + 1/2 * (cached : ℚ)
    if attemptsWeighted < 100 then (true, cold, cached, rows)
    else if (rows : ℚ) / attemptsWeighted > 1 then (true, 0, 0, 0)
    else (false, cold, cached, rows)

/-- A typed value as produced by the evaluator or the literal deserializer
(the `Field` handed to `column.insert`); only null-ness matters to the
control flow, the payload distinguishes values. -/
structure Value where
  isNull : Bool
  payload : Nat
deriving DecidableEq

/-- A compiled expression template for one column together with its mutable
accumulator of per-row parameter bindings (`ConstantExpressionTemplate`).
Each `pending` entry stands for the value its binding evaluates to when
`evaluateAll` flushes the accumulator into the column. -/
structure Template where
  pending : List Value
deriving DecidableEq

/-- The cross-batch parser state touched by `resetParser` (lines 644-661):
per-column templates and strategy states, the flag recording that the
session aborted with an exception, and `total_rows`. -/
structure FormatState where
  templates : List (Option Template)
  parserTypes : List ParserType
  gotException : Bool
  totalRows : Nat
deriving DecidableEq

/-- `ValuesBlockInputFormat::resetParser` (lines 644-661): after an
exception every column's template is discarded and its strategy state is
set back to `Streaming`; otherwise both are preserved ("there is a good
chance that all messages have the same format").  `total_rows` is zeroed
either way. -/
def resetParser (s : FormatState) : FormatState :=
  if s.gotException then
    { s with templates := s.templates.map fun _ => none,
             parserTypes := s.parserTypes.map fun _ => ParserType.Streaming,
             totalRows := 0 }
  else { s with totalRows := 0 }

/-- ClickHouse `isWhitespaceASCII`, the characters consumed by
`skipWhitespaceIfAny`. -/
def isWs (c : Char) : Bool :=
  c = ' ' || c = '\t' || c = '\n' || c = '\r' || c = '\x0c' || c = '\x0b'

/-- `skipWhitespaceIfAny` on a byte sequence. -/
def skipWsL (cs : List Char) : List Char := cs.dropWhile isWs

/-- `ValuesBlockInputFormat::readSuffix` (lines 629-642) on the remaining
input bytes: a statement terminator `;` is consumed and trailing whitespace
skipped, after which any unread data raises `CANNOT_READ_ALL_DATA`; without
a terminator any remaining data is a `LOGICAL_ERROR`. -/
def readSuffix (cs : List Char) : Except ErrCode Unit :=
  match cs with
  | ';' :: tl =>
      if skipWsL tl = [] then Except.ok () else Except.error ErrCode.CANNOT_READ_ALL_DATA
  | [] => Except.ok ()
  | _ :: _ => Except.error ErrCode.LOGICAL_ERROR

/-- The tail of `ValuesBlockInputFormat::read` (lines 109-181) for the case
in which the batch loop stops before reading any row: when the
whitespace-skipped input is exhausted or at a statement terminator with zero
accumulated rows, `read` calls `readSuffix` and returns the empty
end-of-data signal (modelled by the `Except.ok` unit).  Inputs on which
`read` would parse rows are outside this reduced model (`none`). -/
def readAtEnd (cs : List Char) : Option (Except ErrCode Unit) :=
  let cs' := skipWsL cs
  if cs' = [] then some (readSuffix cs')
  else if cs'.head? = some ';' then some (readSuffix cs')
  else none

/-- The characters `find_first_symbols<'\\', '\'', ')', '('>` jumps to
inside `skipToNextRow`. -/
def isRowSpecial (c : Char) : Bool :=
  c = '\\' || c = '\'' || c = ')' || c = '('

/-- Result of the balance-tracking scan loop of `skipToNextRow`: the
unconsumed input, the number of bytes consumed since the scan began, and
the final parenthesis balance and quoted flag. -/
structure ScanState where
  rest : List Char
  consumed : Nat
  balance : Int
  quoted : Bool
deriving DecidableEq

/-- The scan loop of `ValuesBlockInputFormat::skipToNextRow` (lines 74-102).
Each iteration first re-checks `!eof && (balance || consumed < minBytes)`,
then jumps to the next special symbol — consuming the run of plain bytes —
and handles it: an escape also consumes the following byte when one exists,
a quote toggles the quoted flag, and parentheses adjust the balance only
while unquoted.  A single contiguous buffer is assumed, so reaching the
buffer end is end of input. -/
def scanLoop (minBytes : Nat) (rest : List Char) (balance : Int) (quoted : Bool)
    (consumed : Nat) : ScanState :=
  if rest = [] then ⟨[], consumed, balance, quoted⟩
  else if balance = 0 ∧ minBytes ≤ consumed then ⟨rest, consumed, balance, quoted⟩
  else if hd : (rest.dropWhile fun c => !isRowSpecial c) = [] then
    ⟨[], consumed + rest.length, balance, quoted⟩
  else if (rest.dropWhile fun c => !isRowSpecial c).head hd = '\\' then
    if (rest.dropWhile fun c => !isRowSpecial c).tail = [] then
      ⟨[], consumed + (rest.takeWhile fun c => !isRowSpecial c).length + 1, balance, quoted⟩
    else
      scanLoop minBytes (rest.dropWhile fun c => !isRowSpecial c).tail.tail balance quoted
        (consumed + (rest.takeWhile fun c => !isRowSpecial c).length + 2)
  else if (rest.dropWhile fun c => !isRowSpecial c).head hd = '\'' then
    scanLoop minBytes (rest.dropWhile fun c => !isRowSpecial c).tail balance (!quoted)
      (consumed + (rest.takeWhile fun c => !isRowSpecial c).length + 1)
  else if (rest.dropWhile fun c => !isRowSpecial c).head hd = ')' then
    scanLoop minBytes (rest.dropWhile fun c => !isRowSpecial c).tail
      (if quoted then balance else balance - 1) quoted
      (consumed + (rest.takeWhile fun c => !isRowSpecial c).length + 1)
  else
    scanLoop minBytes (rest.dropWhile fun c => !isRowSpecial c).tail
      (if quoted then balance else balance + 1) quoted
      (consumed + (rest.takeWhile fun c => !isRowSpecial c).length + 1)
termination_by rest.length
decreasing_by
  all_goals
    have hsub : (rest.dropWhile fun c => !isRowSpecial c).length ≤ rest.length :=
      (List.dropWhile_sublist _).length_le
    have hpos : 0 < (rest.dropWhile fun c => !isRowSpecial c).length :=
      List.length_pos.mpr hd
    simp only [List.length_tail]
    omega

/-- `ValuesBlockInputFormat::skipToNextRow` (lines 66-107): skip leading
whitespace; at end of input or at a statement terminator return `none`
(the source returns `false`: no row was consumed); otherwise run the
balance-tracking scan loop and consume one trailing comma if present,
returning the remaining input. -/
def skipToNextRow (cs : List Char) (minBytes : Nat) (balance : Int) :
    Option (List Char) :=
  let cs1 := skipWsL cs
  if cs1 = [] then none
  else if cs1.head? = some ';' then none
  else
    let st := scanLoop minBytes cs1 balance false 0
    some (if st.rest.head? = some ',' then st.rest.tail else st.rest)

/-- The checkpointable byte cursor (`PeekableReadBuffer`): the full input,
the current position, and the checkpoint position. -/
structure PBuf where
  data : List Char
  pos : Nat
  cp : Nat
deriving DecidableEq

/-- The unread bytes at the cursor position. -/
def PBuf.remaining (b : PBuf) : List Char := b.data.drop b.pos

/-- Consume `n` bytes. -/
def PBuf.advance (b : PBuf) (n : Nat) : PBuf := { b with pos := b.pos + n }

/-- `rollbackToCheckpoint`. -/
def PBuf.rollbackToCheckpoint (b : PBuf) : PBuf := { b with pos := b.cp }

/-- `PeekableReadBufferCheckpoint checkpoint{*buf}`: mark the current
position. -/
def PBuf.setCheckpoint (b : PBuf) : PBuf := { b with cp := b.pos }

/-- `skipWhitespaceIfAny` on the cursor. -/
def PBuf.skipWs (b : PBuf) : PBuf :=
  b.advance (b.remaining.takeWhile isWs).length

/-- `checkChar c`: consume `c` when it is the next byte. -/
def PBuf.checkChar (b : PBuf) (c : Char) : Bool × PBuf :=
  match b.remaining with
  | c' :: _ => if c' = c then (true, b.advance 1) else (false, b)
  | [] => (false, b)

/-- `ValuesBlockInputFormat::checkDelimiterAfterValue` (lines 582-595):
skip whitespace, then expect `,` for a non-last column; for the last
column accept an optional trailing comma (with more whitespace) before the
closing `)`. -/
def checkDelimiterAfterValue (isLast : Bool) (b : PBuf) : Bool × PBuf :=
  let b := b.skipWs
  if !isLast then b.checkChar ','
  else
    let r := b.checkChar ','
    let b1 := if r.1 then r.2.skipWs else r.2
    b1.checkChar ')'

/-- Outcome of
`checkStringByFirstCharacterAndAssertTheRestCaseInsensitive("DEFAULT", buf)`:
no first-character match (cursor untouched), a full case-insensitive match
(cursor moved past the keyword), or a thrown assertion failure when the
first character matched but the rest did not. -/
inductive DefCheck where
  | noMatch
  | isDefault (b : PBuf)
  | assertFail
deriving DecidableEq

/-- Case-insensitive match of a pattern against the head of the input
(`assertStringCaseInsensitive`): every pattern character must be present
and match. -/
def matchesCI : List Char → List Char → Bool
  | _, [] => true
  | [], _ :: _ => false
  | c :: cs, p :: ps => (c.toLower = p.toLower) && matchesCI cs ps

/-- The `DEFAULT` keyword check at the head of `tryReadValue` (line 297). -/
def checkDefault (b : PBuf) : DefCheck :=
  match b.remaining with
  | [] => DefCheck.noMatch
  | c :: rest =>
    if c.toLower = 'd' then
      if matchesCI rest ['e', 'f', 'a', 'u', 'l', 't'] then DefCheck.isDefault (b.advance 7)
      else DefCheck.assertFail
    else DefCheck.noMatch

/-- Token kinds relevant to the delimiter logic of `parseExpression`
(`TokenType` of the external lexer). -/
inductive Tok where
  | Comma
  | ClosingRoundBracket
  | OpeningRoundBracket
  | Lit
  | Ident
  | OtherTok
  | TokError
  | TokEnd
deriving DecidableEq

/-- The shape of the AST returned by the external expression parser; the
control flow only inspects whether it is a bare literal
(`dynamic_cast<const ASTLiteral *>` at line 452). -/
structure Ast where
  isLiteral : Bool
deriving DecidableEq

/-- Observable events recorded by the embedding, so that claims about
which collaborators a code path invokes are statable. -/
inductive Ev where
  | insertedDefault
  | invokedDeserializer
  | appendedValue
  | poppedValue
  | invokedExprParser
  | fellBack
  | constructedTemplate
  | evaluatedExpression
deriving DecidableEq

/-- The facets of the column's declared `IDataType` inspected by the
control flow, plus its default value (`column.insertDefault` /
`type.insertDefaultInto`). -/
structure ColType where
  nullable : Bool
  lowCardinalityNullable : Bool
  defaultVal : Value
deriving DecidableEq

/-- The recognized `format_settings` fields (§6 configuration surface). -/
structure FmtSettings where
  nullAsDefault : Bool
  deduceTemplates : Bool
  interpretExpressions : Bool
deriving DecidableEq

/-- Per-column parsing state as seen by `readRow`'s dispatch and the three
strategy functions: the byte cursor, the row's token stream with the
iterator index, the column buffer, the strategy state, the optional
template, the three heuristic counters, whether this is the last column
(`column_idx + 1 == num_columns`), the column's declared type, and the
event trace. -/
structure CState where
  buf : PBuf
  tokens : List Tok
  tit : Nat
  column : List Value
  parserType : ParserType
  template : Option Template
  attemptsCold : Nat
  attemptsCached : Nat
  rowsParsed : Nat
  isLastColumn : Bool
  colType : ColType
  trace : List Ev
deriving DecidableEq

/-- Outcomes of the external collaborators for the current cell, supplied
as data: the literal deserializer (the streaming attempt `deser` and the
re-probe `probeDeser` in `parseExpression`, each giving the bytes consumed
and the value appended, with `deser` also giving the returned read flag),
the SQL expression parser `parse` (the AST and the tokens consumed), the
template-cache lookup `deduceResult` (`found_in_cache` and whether the
fresh template matches the current row), the established template's match
result `templMatch` for the current row with its consumption and bound
value, the final converted value `evalValue` of single-expression
evaluation, and the byte position of the current token
(`(*token_iterator)->begin`, line 547). -/
structure Env where
  deser : Except ErrCode (Bool × Nat × Value)
  probeDeser : Except ErrCode (Nat × Value)
  parse : Option (Ast × Nat)
  deduceResult : Except ErrCode (Bool × Bool)
  templMatch : Bool
  templConsumedTokens : Nat
  templConsumedBytes : Nat
  boundValue : Value
  evalValue : Value
  tokenBeginPos : Nat

/-- Result of one cell parse: `ok read state` models a normal return
(`read = false` means `readRow` will set the cell's missing-mask bit),
`err code state` models a thrown exception together with the state at the
throw point. -/
inductive PRes where
  | ok (read : Bool) (s : CState)
  | err (code : ErrCode) (s : CState)
deriving DecidableEq

/-- The state carried by a result. -/
def PRes.stateOf : PRes → CState
  | .ok _ s => s
  | .err _ s => s

/-- The error code of a thrown result. -/
def PRes.errCode : PRes → Option ErrCode
  | .ok _ _ => none
  | .err c _ => some c

/-- `readRow` (lines 245-246): the missing-mask bit for the cell is set
exactly when the strategy function returned `read = false`. -/
def cellMissing : PRes → Bool
  | .ok read _ => !read
  | .err _ _ => false

/-- `readUntilTheEndOfRowAndReTokenize` (lines 187-220) reduced to its
observable contract: the row's token sequence is data of the state, and
the call fails with `SYNTAX_ERROR` exactly when the token at the iterator
is an error or end token (or the stream is exhausted) — which also covers
the `parsed = false` outcome of an unusable first token at line 428. -/
def tokenOk (s : CState) : Bool :=
  match s.tokens.get? s.tit with
  | some Tok.TokError => false
  | some Tok.TokEnd => false
  | none => false
  | some _ => true

/-- Lines 543-573 of `parseExpression`: single-expression evaluation.  The
cursor moves to the current token's begin; the expression value — after
`evaluateConstantExpression`, optional null-field replacement and
`convertFieldToType` — is `env.evalValue`.  A null into a column that is
neither `Nullable` nor `LowCardinality(Nullable)` inserts the type default
and reports the cell missing when null-as-default coercion is on, and
otherwise rolls the cursor back to the checkpoint and throws
`TYPE_MISMATCH`; every other value is appended. -/
def evalSection (env : Env) (st : FmtSettings) (s : CState) : PRes :=
  if !st.interpretExpressions then PRes.err ErrCode.SUPPORT_IS_DISABLED s
  else
    let s1 : CState := { s with buf := { s.buf with pos := env.tokenBeginPos },
                                trace := s.trace ++ [Ev.evaluatedExpression] }
    let value := env.evalValue
    if value.isNull && !s1.colType.nullable && !s1.colType.lowCardinalityNullable then
      if st.nullAsDefault then
        PRes.ok false { s1 with column := s1.column ++ [s1.colType.defaultVal] }
      else
        PRes.err ErrCode.TYPE_MISMATCH { s1 with buf := s1.buf.rollbackToCheckpoint }
    else
      PRes.ok true { s1 with column := s1.column ++ [value] }

/-- Lines 485-541 of `parseExpression`: the template-deduction attempt.
`shouldDeduceNewTemplate` consults (and possibly resets) the counters; a
template still present is the `LOGICAL_ERROR` defect; the cache lookup or
construction (`getFromCacheOrConstruct`) may throw; on success the cold or
cache-hit counter is bumped, the cursor rolls back to the checkpoint and
the fresh template is tried on the current row: a match moves the column
to `BatchTemplate` with this row's binding accumulated, while a mismatch
or a throw drops the template and falls through to single-expression
evaluation — unless expression interpretation is disabled, which makes the
failure terminal instead. -/
def deduceSection (env : Env) (st : FmtSettings) (s : CState) : Sum PRes CState :=
  let r := shouldDeduceNewTemplate st.deduceTemplates s.attemptsCold s.attemptsCached s.rowsParsed
  let s0 : CState :=
    { s with attemptsCold := r.2.1, attemptsCached := r.2.2.1, rowsParsed := r.2.2.2 }
  if !r.1 then Sum.inr s0
  else if s0.template.isSome then Sum.inl (PRes.err ErrCode.LOGICAL_ERROR s0)
  else
    match env.deduceResult with
    | Except.error c =>
        if !st.interpretExpressions then Sum.inl (PRes.err c s0)
        else Sum.inr { s0 with template := none }
    | Except.ok (foundInCache, tMatches) =>
        let s1 : CState :=
          if foundInCache then { s0 with attemptsCached := s0.attemptsCached + 1 }
          else { s0 with attemptsCold := s0.attemptsCold + 1 }
        let s2 : CState := { s1 with buf := s1.buf.rollbackToCheckpoint,
                                     trace := s1.trace ++ [Ev.constructedTemplate] }
        if tMatches then
          Sum.inl (PRes.ok true
            { s2 with template := some ⟨[env.boundValue]⟩,
                      rowsParsed := s2.rowsParsed + 1,
                      buf := s2.buf.advance env.templConsumedBytes,
                      parserType := ParserType.BatchTemplate })
        else if !st.interpretExpressions then
          Sum.inl (PRes.err ErrCode.SYNTAX_ERROR { s2 with buf := s2.buf.rollbackToCheckpoint })
        else Sum.inr { s2 with template := none }

/-- Lines 452-481 of `parseExpression`: when a non-`Streaming` column's
expression parsed as a bare literal, re-probe the fast literal
deserializer; if it succeeds and the byte-level delimiter check passes,
the column returns to `Streaming` and the probed value stays appended; a
failed delimiter check pops the probed value and falls through; a thrown
recoverable parse error is swallowed, while a non-parse error or the
decimal overflow code propagates. -/
def probeStreaming (ipe : ErrCode → Bool) (env : Env) (s : CState) : Sum PRes CState :=
  match env.probeDeser with
  | Except.ok (n, v) =>
      let sa : CState := { s with buf := s.buf.advance n, column := s.column ++ [v],
                                  trace := s.trace ++ [Ev.invokedDeserializer, Ev.appendedValue] }
      let r := checkDelimiterAfterValue sa.isLastColumn sa.buf
      if r.1 then
        Sum.inl (PRes.ok true { sa with buf := r.2, parserType := ParserType.Streaming })
      else
        Sum.inr { sa with buf := r.2, column := sa.column.dropLast,
                          trace := sa.trace ++ [Ev.poppedValue] }
  | Except.error c =>
      let sa : CState := { s with trace := s.trace ++ [Ev.invokedDeserializer] }
      if !(ipe c) || c == ErrCode.ARGUMENT_OUT_OF_BOUND then Sum.inl (PRes.err c sa)
      else Sum.inr sa

/-- Lines 452-573 of `parseExpression`, the body that runs once the
expression and its delimiter token have been accepted: the literal
re-probe (only for a non-`Streaming` column whose AST is a bare literal),
then `parser_type = SingleExpressionEvaluation`, the template-deduction
attempt, and single-expression evaluation, in source order. -/
def parseExpressionTail (ipe : ErrCode → Bool) (env : Env) (st : FmtSettings) (ast : Ast)
    (sq : CState) : PRes :=
  match (if sq.parserType != ParserType.Streaming && ast.isLiteral
         then probeStreaming ipe env sq else Sum.inr sq) with
  | Sum.inl r => r
  | Sum.inr s1 =>
    match deduceSection env st { s1 with parserType := ParserType.SingleExpressionEvaluation } with
    | Sum.inl r => r
    | Sum.inr s3 => evalSection env st s3

/-- `ValuesBlockInputFormat::parseExpression` (lines 415-574): tokenize to
the row end, run the external expression parser, and require the exact
delimiter token after the expression — `Comma`, or `ClosingRoundBracket`
for the last column (lines 437-441); the token iterator then moves past
the delimiter and `parseExpressionTail` runs the rest. -/
def parseExpression (ipe : ErrCode → Bool) (env : Env) (st : FmtSettings) (s : CState) : PRes :=
  if !(tokenOk s) then PRes.err ErrCode.SYNTAX_ERROR s
  else
    let sp : CState := { s with trace := s.trace ++ [Ev.invokedExprParser] }
    match env.parse with
    | none => PRes.err ErrCode.SYNTAX_ERROR sp
    | some (ast, consumed) =>
      let delimOk :=
        if sp.isLastColumn then sp.tokens.get? (sp.tit + consumed) == some Tok.ClosingRoundBracket
        else sp.tokens.get? (sp.tit + consumed) == some Tok.Comma
      if !delimOk then PRes.err ErrCode.SYNTAX_ERROR sp
      else parseExpressionTail ipe env st ast { sp with tit := sp.tit + consumed + 1 }

/-- The tail of `tryReadValue`'s `try` block once a value (or the default)
has been inserted (`rollback_on_exception = true`, lines 312-316): skip
whitespace and assert the delimiter; an assertion failure that classifies
as a recoverable parse error pops the inserted value, rolls the cursor
back to the checkpoint and falls back to `parseExpression`, while a
classifier that calls it a non-parse error (or the decimal overflow code)
would make it propagate. -/
def afterValue (ipe : ErrCode → Bool) (env : Env) (st : FmtSettings) (s : CState)
    (read : Bool) : PRes :=
  let r := checkDelimiterAfterValue s.isLastColumn s.buf
  if r.1 then PRes.ok read { s with buf := r.2 }
  else
    if !(ipe ErrCode.CANNOT_PARSE_INPUT_ASSERTION_FAILED)
       || ErrCode.CANNOT_PARSE_INPUT_ASSERTION_FAILED == ErrCode.ARGUMENT_OUT_OF_BOUND then
      PRes.err ErrCode.CANNOT_PARSE_INPUT_ASSERTION_FAILED { s with buf := r.2 }
    else
      parseExpression ipe env st
        { s with column := s.column.dropLast, buf := s.buf.rollbackToCheckpoint,
                 trace := s.trace ++ [Ev.poppedValue, Ev.fellBack] }

/-- `ValuesBlockInputFormat::tryReadValue` (lines 291-332).  A cell reading
`DEFAULT` (case-insensitively) inserts the column default without invoking
the deserializer and reports the cell missing (`read = false`); otherwise
the external literal deserializer runs
(`deserializeNullAsDefaultOrNestedTextQuoted` when null-as-default applies
to a non-nullable column, plain `deserializeTextQuoted` otherwise — both
modelled by `env.deser`), then the byte-level delimiter is asserted.  A
thrown error that is not a recoverable parse error — or that is the
decimal overflow code `ARGUMENT_OUT_OF_BOUND` — propagates immediately; a
recoverable parse error pops the inserted value when insertion had already
happened, rolls the cursor back to the checkpoint, and falls back to
`parseExpression`. -/
def tryReadValue (ipe : ErrCode → Bool) (env : Env) (st : FmtSettings) (s : CState) : PRes :=
  match checkDefault s.buf with
  | DefCheck.assertFail =>
      if !(ipe ErrCode.CANNOT_PARSE_INPUT_ASSERTION_FAILED)
         || ErrCode.CANNOT_PARSE_INPUT_ASSERTION_FAILED == ErrCode.ARGUMENT_OUT_OF_BOUND then
        PRes.err ErrCode.CANNOT_PARSE_INPUT_ASSERTION_FAILED s
      else
        parseExpression ipe env st
          { s with buf := s.buf.rollbackToCheckpoint, trace := s.trace ++ [Ev.fellBack] }
  | DefCheck.isDefault b1 =>
      afterValue ipe env st
        { s with buf := b1, column := s.column ++ [s.colType.defaultVal],
                 trace := s.trace ++ [Ev.insertedDefault] } false
  | DefCheck.noMatch =>
      match env.deser with
      | Except.error c =>
          if !(ipe c) || c == ErrCode.ARGUMENT_OUT_OF_BOUND then
            PRes.err c { s with trace := s.trace ++ [Ev.invokedDeserializer] }
          else
            parseExpression ipe env st
              { s with buf := s.buf.rollbackToCheckpoint,
                       trace := s.trace ++ [Ev.invokedDeserializer, Ev.fellBack] }
      | Except.ok (readFlag, n, v) =>
          afterValue ipe env st
            { s with buf := s.buf.advance n, column := s.column ++ [v],
                     trace := s.trace ++ [Ev.invokedDeserializer, Ev.appendedValue] } readFlag

/-- `ValuesBlockInputFormat::tryParseExpressionUsingTemplate`
(lines 257-289): tokenize to the row end, then try the established
template on the row.  A match accumulates this row's binding and counts a
template replay.  A mismatch evaluates every accumulated binding into the
column (`evaluateAll`, appended after any existing column content),
discards the template, rolls the cursor and token iterator back to the
checkpoint, and falls back to `parseExpression` for this row.  The
`BatchTemplate` state guarantees a template is present; its absence is
modelled as the defect it would be. -/
def tryParseExpressionUsingTemplate (ipe : ErrCode → Bool) (env : Env) (st : FmtSettings)
    (s : CState) : PRes :=
  if !(tokenOk s) then PRes.err ErrCode.SYNTAX_ERROR s
  else
    match s.template with
    | none => PRes.err ErrCode.LOGICAL_ERROR s
    | some t =>
      if env.templMatch then
        PRes.ok true
          { s with template := some ⟨t.pending ++ [env.boundValue]⟩,
                   rowsParsed := s.rowsParsed + 1,
                   tit := s.tit + env.templConsumedTokens,
                   buf := s.buf.advance env.templConsumedBytes }
      else
        parseExpression ipe env st
          { s with column := if s.column = [] then t.pending else s.column ++ t.pending,
                   template := none,
                   buf := s.buf.rollbackToCheckpoint }

/-- The per-column body of `ValuesBlockInputFormat::readRow`
(lines 228-247): skip whitespace, set the checkpoint, and dispatch on the
column's strategy state. -/
def readCell (ipe : ErrCode → Bool) (env : Env) (st : FmtSettings) (s : CState) : PRes :=
  let s1 : CState := { s with buf := s.buf.skipWs.setCheckpoint }
  match s1.parserType with
  | ParserType.Streaming => tryReadValue ipe env st s1
  | ParserType.BatchTemplate => tryParseExpressionUsingTemplate ipe env st s1
  | ParserType.SingleExpressionEvaluation => parseExpression ipe env st s1

/-- A sample recoverable-parse-error classifier for concrete
instantiations.  In the repository the classifier counts assertion
failures and the decimal-overflow code `ARGUMENT_OUT_OF_BOUND` among parse
errors, which is exactly why `tryReadValue` must exclude the latter
explicitly. -/
def ipeSample : ErrCode → Bool
  | ErrCode.CANNOT_PARSE_INPUT_ASSERTION_FAILED => true
  | ErrCode.ARGUMENT_OUT_OF_BOUND => true
  | ErrCode.other _ => true
  | _ => false

/-- Sample column type for concrete instantiations: not nullable, default
value `⟨false, 0⟩`. -/
def sampleColType : ColType := ⟨false, false, ⟨false, 0⟩⟩

/-- A neutral collaborator environment for concrete instantiations;
individual instantiations override the fields they exercise. -/
def sampleEnv : Env :=
  { deser := Except.error (ErrCode.other 0)
    probeDeser := Except.error (ErrCode.other 0)
    parse := none
    deduceResult := Except.error (ErrCode.other 0)
    templMatch := false
    templConsumedTokens := 0
    templConsumedBytes := 0
    boundValue := ⟨false, 7⟩
    evalValue := ⟨false, 9⟩
    tokenBeginPos := 0 }

/-- A base per-column state for concrete instantiations. -/
def sampleState : CState :=
  { buf := ⟨['1', ')'], 0, 0⟩
    tokens := [Tok.Lit, Tok.ClosingRoundBracket]
    tit := 0
    column := []
    parserType := ParserType.Streaming
    template := none
    attemptsCold := 0
    attemptsCached := 0
    rowsParsed := 0
    isLastColumn := true
    colType := sampleColType
    trace := [] }

/-- Neutral settings for concrete instantiations: null-as-default off,
template deduction off, expression interpretation on. -/
def sampleSettings : FmtSettings := ⟨false, false, true⟩

/-! ## Theorems -/

lemma probeStreaming_inl (ipe : ErrCode → Bool) (env : Env) (s : CState) (r : PRes)
    (h : probeStreaming ipe env s = Sum.inl r) :
    (∃ tail, r.stateOf.column = s.column ++ tail) ∧ r.stateOf.template = s.template := by
  unfold probeStreaming at h
  rcases hp : env.probeDeser with c | ⟨n, v⟩ <;> rw [hp] at h <;> dsimp only at h <;>
    split_ifs at h <;> cases h
  · exact ⟨⟨[], by simp [PRes.stateOf]⟩, rfl⟩
  · exact ⟨⟨[v], by simp [PRes.stateOf]⟩, rfl⟩

lemma probeStreaming_inr (ipe : ErrCode → Bool) (env : Env) (s : CState) (s' : CState)
    (h : probeStreaming ipe env s = Sum.inr s') :
    s'.column = s.column ∧ s'.template = s.template := by
  unfold probeStreaming at h
  rcases hp : env.probeDeser with c | ⟨n, v⟩ <;> rw [hp] at h <;> dsimp only at h <;>
    split_ifs at h <;> cases h
  · exact ⟨rfl, rfl⟩
  · exact ⟨by simp, rfl⟩

lemma deduceSection_inl (env : Env) (st : FmtSettings) (s : CState) (r : PRes)
    (h : deduceSection env st s = Sum.inl r) :
    r.stateOf.column = s.column ∧
    (s.template = none →
      (r.stateOf.template = none ∨ r.stateOf.template = some ⟨[env.boundValue]⟩)) := by
  unfold deduceSection at h
  rcases hd : env.deduceResult with c | ⟨f, m⟩ <;> rw [hd] at h <;> dsimp only at h <;>
    split_ifs at h <;> cases h <;>
    exact ⟨by simp [PRes.stateOf], fun hn => by simp_all [PRes.stateOf]⟩

lemma deduceSection_inr (env : Env) (st : FmtSettings) (s : CState) (s' : CState)
    (h : deduceSection env st s = Sum.inr s') :
    s'.column = s.column ∧ (s.template = none → s'.template = none) := by
  unfold deduceSection at h
  rcases hd : env.deduceResult with c | ⟨f, m⟩ <;> rw [hd] at h <;> dsimp only at h <;>
    split_ifs at h <;> cases h <;>
    exact ⟨by simp [PRes.stateOf], fun hn => by simp_all [PRes.stateOf]⟩

lemma evalSection_extends (env : Env) (st : FmtSettings) (s : CState) :
    (∃ tail, (evalSection env st s).stateOf.column = s.column ++ tail) ∧
    (evalSection env st s).stateOf.template = s.template := by
  unfold evalSection
  dsimp only
  split_ifs
  · exact ⟨⟨[], by simp [PRes.stateOf]⟩, rfl⟩
  · exact ⟨⟨[s.colType.defaultVal], by simp [PRes.stateOf]⟩, rfl⟩
  · exact ⟨⟨[], by simp [PRes.stateOf]⟩, rfl⟩
  · exact ⟨⟨[env.evalValue], by simp [PRes.stateOf]⟩, rfl⟩

lemma parseExpressionTail_extends (ipe : ErrCode → Bool) (env : Env) (st : FmtSettings)
    (ast : Ast) (sq : CState) :
    (∃ tail, (parseExpressionTail ipe env st ast sq).stateOf.column = sq.column ++ tail) ∧
    (sq.template = none →
      ((parseExpressionTail ipe env st ast sq).stateOf.template = none ∨
       (parseExpressionTail ipe env st ast sq).stateOf.template
          = some ⟨[env.boundValue]⟩)) := by
  unfold parseExpressionTail
  rcases hpr : (if sq.parserType != ParserType.Streaming && ast.isLiteral
                then probeStreaming ipe env sq else Sum.inr sq) with r | s1
  all_goals dsimp only
  · have hcases :
        (∃ tail, r.stateOf.column = sq.column ++ tail) ∧ r.stateOf.template = sq.template := by
      by_cases hc : (sq.parserType != ParserType.Streaming && ast.isLiteral) = true
      · rw [if_pos hc] at hpr
        exact probeStreaming_inl ipe env sq r hpr
      · rw [if_neg hc] at hpr
        cases hpr
    obtain ⟨⟨tail, htail⟩, htmp⟩ := hcases
    exact ⟨⟨tail, htail⟩, fun h => Or.inl (by rw [htmp]; exact h)⟩
  · have hcases : s1.column = sq.column ∧ s1.template = sq.template := by
      by_cases hc : (sq.parserType != ParserType.Streaming && ast.isLiteral) = true
      · rw [if_pos hc] at hpr
        exact probeStreaming_inr ipe env sq s1 hpr
      · rw [if_neg hc] at hpr
        cases hpr
        exact ⟨rfl, rfl⟩
    rcases hds : deduceSection env st { s1 with parserType := ParserType.SingleExpressionEvaluation }
      with r2 | s3
    all_goals dsimp only
    · obtain ⟨hcol, htmp⟩ :=
        deduceSection_inl env st { s1 with parserType := ParserType.SingleExpressionEvaluation }
          r2 hds
      refine ⟨⟨[], ?_⟩, fun h => ?_⟩
      · rw [hcol]
        simp [hcases.1]
      · refine htmp ?_
        simp [hcases.2, h]
    · obtain ⟨hcol, htmp⟩ :=
        deduceSection_inr env st { s1 with parserType := ParserType.SingleExpressionEvaluation }
          s3 hds
      obtain ⟨⟨tail, htail⟩, htmp2⟩ := evalSection_extends env st s3
      refine ⟨⟨tail, ?_⟩, fun h => ?_⟩
      · rw [htail, hcol]
        simp [hcases.1]
      · rw [htmp2]
        exact Or.inl (htmp (by simp [hcases.2, h]))

/-- `parseExpression` only appends to the column, and starting from a
column with no template it ends with either no template or a freshly
deduced one holding exactly the current row's binding. -/
lemma parseExpression_extends (ipe : ErrCode → Bool) (env : Env) (st : FmtSettings)
    (s : CState) :
    (∃ tail, (parseExpression ipe env st s).stateOf.column = s.column ++ tail) ∧
    (s.template = none →
      ((parseExpression ipe env st s).stateOf.template = none ∨
       (parseExpression ipe env st s).stateOf.template = some ⟨[env.boundValue]⟩)) := by
  unfold parseExpression
  by_cases htok : tokenOk s
  case neg =>
    simp only [htok]
    exact ⟨⟨[], by simp [PRes.stateOf]⟩, fun h => Or.inl (by simp [PRes.stateOf, h])⟩
  case pos =>
    simp only [htok]
    rcases hp : env.parse with _ | ⟨ast, consumed⟩
    · exact ⟨⟨[], by simp [PRes.stateOf]⟩, fun h => Or.inl (by simp [PRes.stateOf, h])⟩
    · dsimp only
      by_cases hdel :
        (if s.isLastColumn then s.tokens.get? (s.tit + consumed) == some Tok.ClosingRoundBracket
         else s.tokens.get? (s.tit + consumed) == some Tok.Comma) = true
      · rw [hdel]
        rw [if_neg (by simp)]
        obtain ⟨⟨tail, htail⟩, htmp⟩ := parseExpressionTail_extends ipe env st ast
          { s with trace := s.trace ++ [Ev.invokedExprParser], tit := s.tit + consumed + 1 }
        exact ⟨⟨tail, htail⟩, fun h => htmp h⟩
      · have hdf :
            (if s.isLastColumn then s.tokens.get? (s.tit + consumed) == some Tok.ClosingRoundBracket
             else s.tokens.get? (s.tit + consumed) == some Tok.Comma) = false := by
          rcases hx : (if s.isLastColumn then
              s.tokens.get? (s.tit + consumed) == some Tok.ClosingRoundBracket
            else s.tokens.get? (s.tit + consumed) == some Tok.Comma) with _ | _
          · rfl
          · exact absurd hx hdel
        have key : (if s.isLastColumn = true
            then ¬ s.tokens[s.tit + consumed]? = some Tok.ClosingRoundBracket
            else ¬ s.tokens[s.tit + consumed]? = some Tok.Comma) := by
          by_cases hl : s.isLastColumn = true <;> simp [hl] at hdf ⊢ <;> exact hdf
        constructor
        · exact ⟨[], by simp [key, PRes.stateOf]⟩
        · intro h
          exact Or.inl (by simp [key, PRes.stateOf, h])

lemma weighted_lt_iff (cold cached : Nat) :
    3/2 * (cold : ℚ) + 1/2 * (cached : ℚ) < 100 ↔ 3 * cold + cached < 200 := by
  constructor
  · intro h
    by_contra hc
    push_neg at hc
    have : (200 : ℚ) ≤ 3 * (cold : ℚ) + (cached : ℚ) := by exact_mod_cast hc
    linarith
  · intro h
    have : (3 : ℚ) * (cold : ℚ) + (cached : ℚ) < 200 := by exact_mod_cast h
    linarith

lemma ratio_gt_iff (cold cached rows : Nat)
    (h : ¬ 3/2 * (cold : ℚ) + 1/2 * (cached : ℚ) < 100) :
    (rows : ℚ) / (3/2 * (cold : ℚ) + 1/2 * (cached : ℚ)) > 1 ↔
      3 * cold + cached < 2 * rows := by
  push_neg at h
  have hpos : (0 : ℚ) < 3/2 * (cold : ℚ) + 1/2 * (cached : ℚ) := lt_of_lt_of_le (by norm_num) h
  rw [gt_iff_lt, one_lt_div hpos]
  constructor
  · intro hlt
    by_contra hc
    push_neg at hc
    have : (2 : ℚ) * (rows : ℚ) ≤ 3 * (cold : ℚ) + (cached : ℚ) := by exact_mod_cast hc
    linarith
  · intro hlt
    have : (3 : ℚ) * (cold : ℚ) + (cached : ℚ) < 2 * (rows : ℚ) := by exact_mod_cast hlt
    linarith

/-- Claim C2 (amended): provided template deduction is enabled in the format
settings, `shouldDeduceNewTemplate` returns `true` whenever the weighted
score `1.5·cold + 0.5·cached` is strictly below 100 (leaving the counters
unchanged); once the score is at or above 100 it returns `true` exactly when
the ratio of rows successfully replayed via templates to the weighted score
exceeds 1, in which case all three counters are reset to zero, and otherwise
returns `false` with the counters unchanged; in particular after 67 cold
attempts and zero successful replays (score 100.5, ratio 0) it returns
`false`.  The scaled integer conditions `3·cold + cached < 200` and
`3·cold + cached < 2·rows` are proved equivalent to the score conditions by
the two `↔` conjuncts. -/
theorem claim2_deduction_heuristic (cold cached rows : Nat) :
    (3 * cold + cached < 200 →
      shouldDeduceNewTemplate true cold cached rows = (true, cold, cached, rows)) ∧
    (200 ≤ 3 * cold + cached → 3 * cold + cached < 2 * rows →
      shouldDeduceNewTemplate true cold cached rows = (true, 0, 0, 0)) ∧
    (200 ≤ 3 * cold + cached → 2 * rows ≤ 3 * cold + cached →
      shouldDeduceNewTemplate true cold cached rows = (false, cold, cached, rows)) ∧
    (3/2 * (cold : ℚ) + 1/2 * (cached : ℚ) < 100 ↔ 3 * cold + cached < 200) ∧
    (¬ 3/2 * (cold : ℚ) + 1/2 * (cached : ℚ) < 100 →
      ((rows : ℚ) / (3/2 * (cold : ℚ) + 1/2 * (cached : ℚ)) > 1 ↔
        3 * cold + cached < 2 * rows)) ∧
    shouldDeduceNewTemplate true 67 0 0 = (false, 67, 0, 0) ∧
    3/2 * ((67 : Nat) : ℚ) + 1/2 * ((0 : Nat) : ℚ) = 201/2 := by
  have h67 : ¬ 3/2 * ((67 : Nat) : ℚ) + 1/2 * ((0 : Nat) : ℚ) < 100 := by
    push_cast; norm_num
  have h67r : ¬ ((0 : Nat) : ℚ) / (3/2 * ((67 : Nat) : ℚ) + 1/2 * ((0 : Nat) : ℚ)) > 1 := by
    push_cast; norm_num
  refine ⟨?_, ?_, ?_, weighted_lt_iff cold cached, ratio_gt_iff cold cached rows, ?_, ?_⟩
  · intro h
    have hw := (weighted_lt_iff cold cached).2 h
    simp only [shouldDeduceNewTemplate, Bool.not_true]
    rw [if_neg (by simp), if_pos hw]
  · intro h1 h2
    have hw : ¬ 3/2 * (cold : ℚ) + 1/2 * (cached : ℚ) < 100 := by
      rw [weighted_lt_iff]; omega
    have hr := (ratio_gt_iff cold cached rows hw).2 h2
    simp only [shouldDeduceNewTemplate, Bool.not_true]
    rw [if_neg (by simp), if_neg hw, if_pos hr]
  · intro h1 h2
    have hw : ¬ 3/2 * (cold : ℚ) + 1/2 * (cached : ℚ) < 100 := by
      rw [weighted_lt_iff]; omega
    have hr : ¬ (rows : ℚ) / (3/2 * (cold : ℚ) + 1/2 * (cached : ℚ)) > 1 := fun hc =>
      absurd ((ratio_gt_iff cold cached rows hw).1 hc) (by omega)
    simp only [shouldDeduceNewTemplate, Bool.not_true]
    rw [if_neg (by simp), if_neg hw, if_neg hr]
  · simp only [shouldDeduceNewTemplate, Bool.not_true]
    rw [if_neg (by simp), if_neg h67, if_neg h67r]
  · push_cast; norm_num

/-- Claim C2 counterexample: with template deduction disabled in the format
settings, `shouldDeduceNewTemplate` returns `false` although the weighted
score `1.5·0 + 0.5·0 = 0` is strictly below 100, refuting the claim as
stated (it asserts the function "returns true whenever the weighted score
... is strictly below 100"). -/
theorem claim2_counterexample :
    shouldDeduceNewTemplate false 0 0 0 = (false, 0, 0, 0) ∧
    3/2 * ((0 : Nat) : ℚ) + 1/2 * ((0 : Nat) : ℚ) < 100 := by
  refine ⟨rfl, ?_⟩
  push_cast; norm_num

/-- Witness for the amended claim C2 theorem at concrete counter values:
score 1.5 < 100 always deduces; score 100.5 with 101 replays resets and
retries; score 100.5 with 0 replays declines. -/
theorem claim2_witness :
    shouldDeduceNewTemplate true 1 0 0 = (true, 1, 0, 0) ∧
    shouldDeduceNewTemplate true 67 0 101 = (true, 0, 0, 0) ∧
    shouldDeduceNewTemplate true 67 0 0 = (false, 67, 0, 0) :=
  ⟨(claim2_deduction_heuristic 1 0 0).1 (by decide),
   (claim2_deduction_heuristic 67 0 101).2.1 (by decide) (by decide),
   (claim2_deduction_heuristic 67 0 0).2.2.1 (by decide) (by decide)⟩

/-- Claim C7: after a session aborted by an error (`got_exception` set),
`resetParser` discards every column's template and sets every column's
strategy state back to `Streaming`; after a session that completed without
error it preserves every column's strategy state and template for
subsequent batches. -/
theorem claim7_resetParser (s : FormatState) :
    (s.gotException = true →
      (∀ t ∈ (resetParser s).templates, t = none) ∧
      (∀ p ∈ (resetParser s).parserTypes, p = ParserType.Streaming) ∧
      (resetParser s).templates.length = s.templates.length ∧
      (resetParser s).parserTypes.length = s.parserTypes.length) ∧
    (s.gotException = false →
      (resetParser s).templates = s.templates ∧
      (resetParser s).parserTypes = s.parserTypes) := by
  constructor
  · intro h
    refine ⟨?_, ?_, ?_, ?_⟩ <;> simp [resetParser, h]
  · intro h
    constructor <;> simp [resetParser, h]

/-- Witness for claim C7 at concrete states: an aborted session wipes the
template and the `BatchTemplate` strategy state; a clean session keeps
both. -/
theorem claim7_witness :
    ((∀ t ∈ (resetParser ⟨[some ⟨[⟨false, 5⟩]⟩], [ParserType.BatchTemplate], true, 3⟩).templates,
        t = none) ∧
     (∀ p ∈ (resetParser ⟨[some ⟨[⟨false, 5⟩]⟩], [ParserType.BatchTemplate], true, 3⟩).parserTypes,
        p = ParserType.Streaming) ∧
     (resetParser ⟨[some ⟨[⟨false, 5⟩]⟩], [ParserType.BatchTemplate], true,
        3⟩).templates.length = 1 ∧
     (resetParser ⟨[some ⟨[⟨false, 5⟩]⟩], [ParserType.BatchTemplate], true,
        3⟩).parserTypes.length = 1) ∧
    ((resetParser ⟨[some ⟨[⟨false, 5⟩]⟩], [ParserType.BatchTemplate], false, 3⟩).templates
        = [some ⟨[⟨false, 5⟩]⟩] ∧
     (resetParser ⟨[some ⟨[⟨false, 5⟩]⟩], [ParserType.BatchTemplate], false, 3⟩).parserTypes
        = [ParserType.BatchTemplate]) :=
  ⟨(claim7_resetParser ⟨[some ⟨[⟨false, 5⟩]⟩], [ParserType.BatchTemplate], true, 3⟩).1 rfl,
   (claim7_resetParser ⟨[some ⟨[⟨false, 5⟩]⟩], [ParserType.BatchTemplate], false, 3⟩).2 rfl⟩

/-- Claim C9: after the last row of a batch, a statement terminator `;`
followed by only whitespace up to end of input is accepted as valid
end-of-data (the zero-row `read` returns the empty end signal through a
successful `readSuffix`), and a terminator followed by any non-whitespace
data raises `CANNOT_READ_ALL_DATA` rather than being silently ignored. -/
theorem claim9_terminator (tl : List Char) :
    ((∀ c ∈ tl, isWs c = true) → readAtEnd (';' :: tl) = some (Except.ok ())) ∧
    (skipWsL tl ≠ [] →
      readAtEnd (';' :: tl) = some (Except.error ErrCode.CANNOT_READ_ALL_DATA)) := by
  have hsw : skipWsL (';' :: tl) = ';' :: tl := rfl
  constructor
  · intro h
    have hnil : skipWsL tl = [] := by
      simp only [skipWsL, List.dropWhile_eq_nil_iff]
      exact h
    simp [readAtEnd, hsw, readSuffix, hnil]
  · intro h
    simp [readAtEnd, hsw, readSuffix, h]

/-- Witness for claim C9: terminator plus a blank is accepted; terminator
followed by a non-whitespace byte is the unread-data error. -/
theorem claim9_witness :
    readAtEnd [';', ' '] = some (Except.ok ()) ∧
    readAtEnd [';', ' ', 'x'] = some (Except.error ErrCode.CANNOT_READ_ALL_DATA) :=
  ⟨(claim9_terminator [' ']).1 (by decide),
   (claim9_terminator [' ', 'x']).2 (by decide)⟩

lemma scanLoop_stopped (minBytes : Nat) (rest : List Char) (balance : Int) (quoted : Bool)
    (consumed : Nat) (h0 : rest ≠ []) (h : balance = 0 ∧ minBytes ≤ consumed) :
    scanLoop minBytes rest balance quoted consumed = ⟨rest, consumed, balance, quoted⟩ := by
  rw [scanLoop.eq_def, if_neg h0, if_pos h]

lemma scanLoop_escape (minBytes : Nat) (x : Char) (tl : List Char) (balance : Int)
    (quoted : Bool) (consumed : Nat) (h : ¬(balance = 0 ∧ minBytes ≤ consumed)) :
    scanLoop minBytes ('\\' :: x :: tl) balance quoted consumed
      = scanLoop minBytes tl balance quoted (consumed + 2) := by
  rw [scanLoop.eq_def, if_neg (by simp), if_neg h]
  simp +decide [List.dropWhile_cons, List.takeWhile_cons, isRowSpecial]

lemma scanLoop_escape_eof (minBytes : Nat) (balance : Int) (quoted : Bool) (consumed : Nat)
    (h : ¬(balance = 0 ∧ minBytes ≤ consumed)) :
    scanLoop minBytes ['\\'] balance quoted consumed = ⟨[], consumed + 1, balance, quoted⟩ := by
  rw [scanLoop.eq_def, if_neg (by simp), if_neg h]
  simp +decide [List.dropWhile_cons, List.takeWhile_cons, isRowSpecial]

lemma scanLoop_quote (minBytes : Nat) (tl : List Char) (balance : Int) (quoted : Bool)
    (consumed : Nat) (h : ¬(balance = 0 ∧ minBytes ≤ consumed)) :
    scanLoop minBytes ('\'' :: tl) balance quoted consumed
      = scanLoop minBytes tl balance (!quoted) (consumed + 1) := by
  rw [scanLoop.eq_def, if_neg (by simp), if_neg h]
  simp +decide [List.dropWhile_cons, List.takeWhile_cons, isRowSpecial]

lemma scanLoop_open (minBytes : Nat) (tl : List Char) (balance : Int) (quoted : Bool)
    (consumed : Nat) (h : ¬(balance = 0 ∧ minBytes ≤ consumed)) :
    scanLoop minBytes ('(' :: tl) balance quoted consumed
      = scanLoop minBytes tl (if quoted then balance else balance + 1) quoted
          (consumed + 1) := by
  rw [scanLoop.eq_def, if_neg (by simp), if_neg h]
  simp +decide [List.dropWhile_cons, List.takeWhile_cons, isRowSpecial]

lemma scanLoop_close (minBytes : Nat) (tl : List Char) (balance : Int) (quoted : Bool)
    (consumed : Nat) (h : ¬(balance = 0 ∧ minBytes ≤ consumed)) :
    scanLoop minBytes (')' :: tl) balance quoted consumed
      = scanLoop minBytes tl (if quoted then balance else balance - 1) quoted
          (consumed + 1) := by
  rw [scanLoop.eq_def, if_neg (by simp), if_neg h]
  simp +decide [List.dropWhile_cons, List.takeWhile_cons, isRowSpecial]

lemma scanLoop_stop_aux (minBytes : Nat) :
    ∀ (n : Nat) (rest : List Char) (balance : Int) (quoted : Bool) (consumed : Nat),
      rest.length ≤ n →
      (scanLoop minBytes rest balance quoted consumed).rest = [] ∨
      ((scanLoop minBytes rest balance quoted consumed).balance = 0 ∧
        minBytes ≤ (scanLoop minBytes rest balance quoted consumed).consumed) := by
  intro n
  induction n with
  | zero =>
    intro rest balance quoted consumed hle
    have h0 : rest = [] := List.length_eq_zero.mp (Nat.le_zero.mp hle)
    subst h0
    rw [scanLoop.eq_def]
    simp
  | succ n ih =>
    intro rest balance quoted consumed hle
    rw [scanLoop.eq_def]
    split
    · exact Or.inl rfl
    · split
      · next hstop => exact Or.inr ⟨hstop.1, hstop.2⟩
      · split
        · exact Or.inl rfl
        · next hd =>
          have hsub : (rest.dropWhile fun c => !isRowSpecial c).length ≤ rest.length :=
            (List.dropWhile_sublist _).length_le
          have hpos : 0 < (rest.dropWhile fun c => !isRowSpecial c).length :=
            List.length_pos.mpr hd
          have hlen : (rest.dropWhile fun c => !isRowSpecial c).tail.length ≤ n := by
            simp only [List.length_tail]
            omega
          split
          · split
            · exact Or.inl rfl
            · refine ih _ _ _ _ ?_
              simp only [List.length_tail]
              simp only [List.length_tail] at hlen
              omega
          · split
            · exact ih _ _ _ _ hlen
            · split
              · exact ih _ _ _ _ hlen
              · exact ih _ _ _ _ hlen

/-- Claim C8 (amended): in the row-boundary scan `skipToNextRow`, an escape
byte consumes exactly the following byte when one exists, a quote byte
toggles the quoted state, and parentheses change the balance only while
unquoted; scanning stops only at end of input or once the balance counter
has reached zero with at least the caller-supplied minimum number of bytes
consumed (while the region is unbalanced scanning continues regardless of
the byte count); and the function returns `none` — no row consumed —
exactly when, after skipping whitespace, the input is exhausted or
positioned at a semicolon. -/
theorem claim8_skipToNextRow (cs tl : List Char) (x : Char) (minBytes consumed : Nat)
    (balance : Int) (quoted : Bool)
    (hgo : ¬(balance = 0 ∧ minBytes ≤ consumed)) :
    (skipToNextRow cs minBytes balance = none ↔
      (skipWsL cs = [] ∨ (skipWsL cs).head? = some ';')) ∧
    ((scanLoop minBytes tl balance quoted consumed).rest = [] ∨
      ((scanLoop minBytes tl balance quoted consumed).balance = 0 ∧
        minBytes ≤ (scanLoop minBytes tl balance quoted consumed).consumed)) ∧
    scanLoop minBytes ('\\' :: x :: tl) balance quoted consumed
      = scanLoop minBytes tl balance quoted (consumed + 2) ∧
    scanLoop minBytes ['\\'] balance quoted consumed = ⟨[], consumed + 1, balance, quoted⟩ ∧
    scanLoop minBytes ('\'' :: tl) balance quoted consumed
      = scanLoop minBytes tl balance (!quoted) (consumed + 1) ∧
    scanLoop minBytes ('(' :: tl) balance quoted consumed
      = scanLoop minBytes tl (if quoted then balance else balance + 1) quoted (consumed + 1) ∧
    scanLoop minBytes (')' :: tl) balance quoted consumed
      = scanLoop minBytes tl (if quoted then balance else balance - 1) quoted (consumed + 1) := by
  refine ⟨?_, scanLoop_stop_aux minBytes tl.length tl balance quoted consumed le_rfl,
    scanLoop_escape minBytes x tl balance quoted consumed hgo,
    scanLoop_escape_eof minBytes balance quoted consumed hgo,
    scanLoop_quote minBytes tl balance quoted consumed hgo,
    scanLoop_open minBytes tl balance quoted consumed hgo,
    scanLoop_close minBytes tl balance quoted consumed hgo⟩
  by_cases h1 : skipWsL cs = []
  · simp [skipToNextRow, h1]
  · by_cases h2 : (skipWsL cs).head? = some ';'
    · simp [skipToNextRow, h1, h2]
    · simp [skipToNextRow, h1, h2]

/-- Claim C8 counterexample, refuting the claimed stopping rule ("scanning
stops once the balance returns to the caller-supplied starting value, or
once at least the caller-supplied minimum number of bytes has been
consumed while the region is still unbalanced").  With starting balance 0
and minimum 1 on input `())`, after the first byte the scan is at a state
with 1 byte consumed (at least the minimum) while unbalanced (balance 1),
yet it does not stop there: it continues to 2 bytes consumed and stops
only once the balance reaches 0.  And with starting balance 1 on input
`))`, the scan stops at balance 0 — not at the starting value 1 — with
input remaining. -/
theorem claim8_counterexample :
    skipToNextRow ['(', ')', ')'] 1 0 = some [')'] ∧
    scanLoop 1 ['(', ')', ')'] 0 false 0 = scanLoop 1 [')', ')'] 1 false 1 ∧
    (1 ≤ (1 : Nat) ∧ (1 : Int) ≠ 0) ∧
    scanLoop 1 [')', ')'] 1 false 1 = ⟨[')'], 2, 0, false⟩ ∧
    (2 : Nat) ≠ 1 ∧
    scanLoop 0 [')', ')'] 1 false 0 = ⟨[')'], 1, 0, false⟩ ∧
    (0 : Int) ≠ 1 := by
  have e1 : scanLoop 1 ['(', ')', ')'] 0 false 0 = scanLoop 1 [')', ')'] 1 false 1 :=
    scanLoop_open 1 [')', ')'] 0 false 0 (by decide)
  have e2 : scanLoop 1 [')', ')'] 1 false 1 = scanLoop 1 [')'] 0 false 2 :=
    scanLoop_close 1 [')'] 1 false 1 (by decide)
  have e3 : scanLoop 1 [')'] 0 false 2 = ⟨[')'], 2, 0, false⟩ :=
    scanLoop_stopped 1 [')'] 0 false 2 (by decide) (by decide)
  have e4 : scanLoop 0 [')', ')'] 1 false 0 = scanLoop 0 [')'] 0 false 1 :=
    scanLoop_close 0 [')'] 1 false 0 (by decide)
  have e5 : scanLoop 0 [')'] 0 false 1 = ⟨[')'], 1, 0, false⟩ :=
    scanLoop_stopped 0 [')'] 0 false 1 (by decide) (by decide)
  refine ⟨?_, e1, by decide, e2.trans e3, by decide, e4.trans e5, by decide⟩
  have hs : scanLoop 1 ['(', ')', ')'] 0 false 0 = ⟨[')'], 2, 0, false⟩ :=
    e1.trans (e2.trans e3)
  simp +decide [skipToNextRow, skipWsL, hs]

/-- Witness for the amended claim C8 theorem at a concrete configuration
(minimum 0, starting balance 1, 0 bytes consumed, unquoted). -/
theorem claim8_witness :
    (skipToNextRow ['a'] 0 1 = none ↔
      (skipWsL ['a'] = [] ∨ (skipWsL ['a']).head? = some ';')) ∧
    ((scanLoop 0 [')'] 1 false 0).rest = [] ∨
      ((scanLoop 0 [')'] 1 false 0).balance = 0 ∧
        0 ≤ (scanLoop 0 [')'] 1 false 0).consumed)) ∧
    scanLoop 0 ['\\', 'b', ')'] 1 false 0 = scanLoop 0 [')'] 1 false 2 ∧
    scanLoop 0 ['\\'] 1 false 0 = ⟨[], 1, 1, false⟩ ∧
    scanLoop 0 ['\'', ')'] 1 false 0 = scanLoop 0 [')'] 1 true 1 ∧
    scanLoop 0 ['(', ')'] 1 false 0 = scanLoop 0 [')'] 2 false 1 ∧
    scanLoop 0 [')', ')'] 1 false 0 = scanLoop 0 [')'] 0 false 1 :=
  claim8_skipToNextRow ['a'] [')'] 'b' 0 0 1 false (by decide)

/-- Claim C4 (amended): in the full-expression path `parseExpression`, the
cell parse succeeds only if the token immediately following the parsed
expression is a comma for every column that is not the last, and exactly
the closing round parenthesis for the last column; with a usable token
stream, a wrong delimiter token makes `parseExpression` throw
`SYNTAX_ERROR` at once.  A trailing comma before the closing parenthesis
is not accepted by this token-level check — it is accepted only by the
byte-level `checkDelimiterAfterValue` of the streaming path, whose
acceptance of `,)` the last conjunct records. -/
theorem claim4_delimiter (ipe : ErrCode → Bool) (env : Env) (st : FmtSettings) (s : CState)
    (ast : Ast) (consumed : Nat) (b : Bool) (s' : CState)
    (hp : env.parse = some (ast, consumed)) :
    (parseExpression ipe env st s = PRes.ok b s' →
      (if s.isLastColumn then s.tokens.get? (s.tit + consumed) = some Tok.ClosingRoundBracket
       else s.tokens.get? (s.tit + consumed) = some Tok.Comma)) ∧
    (tokenOk s = true →
      ¬(if s.isLastColumn then s.tokens.get? (s.tit + consumed) = some Tok.ClosingRoundBracket
        else s.tokens.get? (s.tit + consumed) = some Tok.Comma) →
      parseExpression ipe env st s
        = PRes.err ErrCode.SYNTAX_ERROR { s with trace := s.trace ++ [Ev.invokedExprParser] }) ∧
    (checkDelimiterAfterValue true ⟨[',', ')'], 0, 0⟩).1 = true := by
  refine ⟨?_, ?_, by decide⟩
  · intro hok
    unfold parseExpression at hok
    rcases hx : tokenOk s with _ | _
    · rw [hx] at hok
      simp at hok
    · rw [hx] at hok
      rw [hp] at hok
      dsimp only at hok
      by_cases hdel : (if s.isLastColumn
          then s.tokens.get? (s.tit + consumed) == some Tok.ClosingRoundBracket
          else s.tokens.get? (s.tit + consumed) == some Tok.Comma) = true
      · by_cases hl : s.isLastColumn = true <;> simp [hl] at hdel ⊢ <;> exact hdel
      · have hdf : (if s.isLastColumn
            then s.tokens.get? (s.tit + consumed) == some Tok.ClosingRoundBracket
            else s.tokens.get? (s.tit + consumed) == some Tok.Comma) = false := by
          rcases hy : (if s.isLastColumn
              then s.tokens.get? (s.tit + consumed) == some Tok.ClosingRoundBracket
              else s.tokens.get? (s.tit + consumed) == some Tok.Comma) with _ | _
          · rfl
          · exact absurd hy hdel
        rw [hdf] at hok
        simp at hok
  · intro htok hdel
    unfold parseExpression
    rw [htok]
    rw [if_neg (by simp)]
    rw [hp]
    dsimp only
    have hdf : (if s.isLastColumn
        then s.tokens.get? (s.tit + consumed) == some Tok.ClosingRoundBracket
        else s.tokens.get? (s.tit + consumed) == some Tok.Comma) = false := by
      by_cases hl : s.isLastColumn = true <;> simp [hl] at hdel ⊢ <;> exact hdel
    rw [hdf]
    simp

/-- Claim C4 counterexample: for the last column, an expression followed by
a trailing comma and then the closing parenthesis is rejected by the
full-expression path with `SYNTAX_ERROR` — the claim's "closing round
parenthesis, optionally preceded by a trailing comma" does not hold in
this path. -/
theorem claim4_counterexample :
    (parseExpression ipeSample { sampleEnv with parse := some (⟨true⟩, 1) } sampleSettings
        { sampleState with tokens := [Tok.Lit, Tok.Comma, Tok.ClosingRoundBracket] }).errCode
      = some ErrCode.SYNTAX_ERROR ∧
    ({ sampleState with tokens := [Tok.Lit, Tok.Comma, Tok.ClosingRoundBracket] }
        : CState).isLastColumn = true ∧
    [Tok.Lit, Tok.Comma, Tok.ClosingRoundBracket].get? (0 + 1) = some Tok.Comma ∧
    [Tok.Lit, Tok.Comma, Tok.ClosingRoundBracket].get? (0 + 2) = some Tok.ClosingRoundBracket
    := by decide

/-- Witness for the amended claim C4 theorem: a correct closing-parenthesis
token lets the only-if direction fire on a successful parse, and a wrong
delimiter token yields `SYNTAX_ERROR`. -/
theorem claim4_witness :
    (parseExpression ipeSample { sampleEnv with parse := some (⟨false⟩, 1) } sampleSettings
        { sampleState with tokens := [Tok.Lit, Tok.OtherTok] } = PRes.ok true sampleState →
      (if ({ sampleState with tokens := [Tok.Lit, Tok.OtherTok] } : CState).isLastColumn then
        [Tok.Lit, Tok.OtherTok].get? (0 + 1) = some Tok.ClosingRoundBracket
       else [Tok.Lit, Tok.OtherTok].get? (0 + 1) = some Tok.Comma)) ∧
    parseExpression ipeSample { sampleEnv with parse := some (⟨false⟩, 1) } sampleSettings
        { sampleState with tokens := [Tok.Lit, Tok.OtherTok] }
      = PRes.err ErrCode.SYNTAX_ERROR
          { sampleState with tokens := [Tok.Lit, Tok.OtherTok],
                             trace := [Ev.invokedExprParser] } :=
  ⟨((claim4_delimiter ipeSample { sampleEnv with parse := some (⟨false⟩, 1) } sampleSettings
      { sampleState with tokens := [Tok.Lit, Tok.OtherTok] } ⟨false⟩ 1 true sampleState
      rfl).1),
   ((claim4_delimiter ipeSample { sampleEnv with parse := some (⟨false⟩, 1) } sampleSettings
      { sampleState with tokens := [Tok.Lit, Tok.OtherTok] } ⟨false⟩ 1 true sampleState
      rfl).2.1) (by decide) (by decide)⟩

/-- Claim C5: in `Streaming` state, when literal deserialization raises the
decimal-overflow code `ARGUMENT_OUT_OF_BOUND` or any error the classifier
does not deem a recoverable parse error, `tryReadValue` propagates it
immediately — the state is untouched apart from recording the
deserializer invocation: no rollback, no value popped, no
full-expression fallback; only a recoverable parse error other than the
overflow code triggers rollback to the checkpoint followed by
`parseExpression`. -/
theorem claim5_error_propagation (ipe : ErrCode → Bool) (env : Env) (st : FmtSettings)
    (s : CState) (c : ErrCode)
    (hnd : checkDefault s.buf = DefCheck.noMatch)
    (hde : env.deser = Except.error c) :
    ((ipe c = false ∨ c = ErrCode.ARGUMENT_OUT_OF_BOUND) →
      tryReadValue ipe env st s
        = PRes.err c { s with trace := s.trace ++ [Ev.invokedDeserializer] }) ∧
    (ipe c = true → c ≠ ErrCode.ARGUMENT_OUT_OF_BOUND →
      tryReadValue ipe env st s
        = parseExpression ipe env st
            { s with buf := s.buf.rollbackToCheckpoint,
                     trace := s.trace ++ [Ev.invokedDeserializer, Ev.fellBack] }) := by
  constructor
  · rintro (h | h)
    · unfold tryReadValue
      rw [hnd, hde]
      dsimp only
      rw [if_pos (by simp [h])]
    · subst h
      unfold tryReadValue
      rw [hnd, hde]
      dsimp only
      rw [if_pos (by simp)]
  · intro h1 h2
    unfold tryReadValue
    rw [hnd, hde]
    dsimp only
    rw [if_neg (by simp [h1, h2])]

/-- Witness for the claim C5 theorem: a non-parse error (`TYPE_MISMATCH`
under the sample classifier), the decimal-overflow code, and a recoverable
parse error (`other 1`), at a concrete streaming state. -/
theorem claim5_witness :
    tryReadValue ipeSample { sampleEnv with deser := Except.error ErrCode.TYPE_MISMATCH }
        sampleSettings sampleState
      = PRes.err ErrCode.TYPE_MISMATCH
          { sampleState with trace := [Ev.invokedDeserializer] } ∧
    tryReadValue ipeSample { sampleEnv with deser := Except.error ErrCode.ARGUMENT_OUT_OF_BOUND }
        sampleSettings sampleState
      = PRes.err ErrCode.ARGUMENT_OUT_OF_BOUND
          { sampleState with trace := [Ev.invokedDeserializer] } ∧
    tryReadValue ipeSample { sampleEnv with deser := Except.error (ErrCode.other 1) }
        sampleSettings sampleState
      = parseExpression ipeSample { sampleEnv with deser := Except.error (ErrCode.other 1) }
          sampleSettings
          { sampleState with buf := sampleState.buf.rollbackToCheckpoint,
                             trace := [Ev.invokedDeserializer, Ev.fellBack] } :=
  ⟨(claim5_error_propagation ipeSample
      { sampleEnv with deser := Except.error ErrCode.TYPE_MISMATCH } sampleSettings sampleState
      ErrCode.TYPE_MISMATCH (by decide) rfl).1 (Or.inl (by decide)),
   (claim5_error_propagation ipeSample
      { sampleEnv with deser := Except.error ErrCode.ARGUMENT_OUT_OF_BOUND } sampleSettings
      sampleState ErrCode.ARGUMENT_OUT_OF_BOUND (by decide) rfl).1 (Or.inr rfl),
   (claim5_error_propagation ipeSample
      { sampleEnv with deser := Except.error (ErrCode.other 1) } sampleSettings sampleState
      (ErrCode.other 1) (by decide) rfl).2 (by decide) (by decide)⟩

/-- Claim C6: in the full-expression path, when the evaluated and coerced
expression value is null and the target column type is neither `Nullable`
nor `LowCardinality(Nullable)`: with null-as-default coercion enabled the
column's type default is inserted and the function returns `false`, so the
cell's missing-mask bit is set; otherwise the cursor is rolled back to the
checkpoint and the terminal `TYPE_MISMATCH` error is raised with no value
appended.  The hypotheses route the call to single-expression evaluation:
usable tokens, a successful parse with the correct delimiter token, a
non-literal AST (no streaming re-probe), template deduction disabled, and
expression interpretation enabled. -/
theorem claim6_null_rejection (ipe : ErrCode → Bool) (env : Env) (st : FmtSettings)
    (s : CState) (ast : Ast) (consumed : Nat)
    (htok : tokenOk s = true)
    (hp : env.parse = some (ast, consumed))
    (hdel : (if s.isLastColumn
        then s.tokens.get? (s.tit + consumed) == some Tok.ClosingRoundBracket
        else s.tokens.get? (s.tit + consumed) == some Tok.Comma) = true)
    (hlit : ast.isLiteral = false)
    (hded : st.deduceTemplates = false)
    (hint : st.interpretExpressions = true)
    (hnull : env.evalValue.isNull = true)
    (hn1 : s.colType.nullable = false)
    (hn2 : s.colType.lowCardinalityNullable = false) :
    (st.nullAsDefault = true →
      ∃ s', parseExpression ipe env st s = PRes.ok false s' ∧
        s'.column = s.column ++ [s.colType.defaultVal] ∧
        cellMissing (parseExpression ipe env st s) = true) ∧
    (st.nullAsDefault = false →
      ∃ s', parseExpression ipe env st s = PRes.err ErrCode.TYPE_MISMATCH s' ∧
        s'.column = s.column ∧ s'.buf.pos = s.buf.cp) := by
  have step : parseExpression ipe env st s
      = evalSection env st
          { s with trace := s.trace ++ [Ev.invokedExprParser], tit := s.tit + consumed + 1,
                   parserType := ParserType.SingleExpressionEvaluation } := by
    unfold parseExpression
    rw [htok, if_neg (by simp), hp]
    dsimp only
    rw [hdel, if_neg (by simp)]
    unfold parseExpressionTail
    rw [if_neg (by simp [hlit])]
    dsimp only
    unfold deduceSection
    rw [hded]
    rfl
  constructor
  · intro hnad
    rw [step]
    unfold evalSection
    rw [if_neg (by simp [hint])]
    dsimp only
    rw [if_pos (by simp [hnull, hn1, hn2]), if_pos hnad]
    exact ⟨_, rfl, by simp, by simp [cellMissing]⟩
  · intro hnad
    rw [step]
    unfold evalSection
    rw [if_neg (by simp [hint])]
    dsimp only
    rw [if_pos (by simp [hnull, hn1, hn2]), if_neg (by simp [hnad])]
    refine ⟨_, rfl, by simp, ?_⟩
    simp [PBuf.rollbackToCheckpoint]

/-- Witness for the claim C6 theorem at a concrete state: a null
expression value into a non-nullable column inserts the default and marks
the cell missing when null-as-default is on, and raises `TYPE_MISMATCH`
with the cursor back at the checkpoint when it is off. -/
theorem claim6_witness :
    (∃ s', parseExpression ipeSample
        { sampleEnv with parse := some (⟨false⟩, 1), evalValue := ⟨true, 0⟩ }
        ⟨true, false, true⟩ sampleState = PRes.ok false s' ∧
        s'.column = sampleState.column ++ [sampleState.colType.defaultVal] ∧
        cellMissing (parseExpression ipeSample
          { sampleEnv with parse := some (⟨false⟩, 1), evalValue := ⟨true, 0⟩ }
          ⟨true, false, true⟩ sampleState) = true) ∧
    (∃ s', parseExpression ipeSample
        { sampleEnv with parse := some (⟨false⟩, 1), evalValue := ⟨true, 0⟩ }
        sampleSettings sampleState = PRes.err ErrCode.TYPE_MISMATCH s' ∧
        s'.column = sampleState.column ∧ s'.buf.pos = sampleState.buf.cp) :=
  ⟨(claim6_null_rejection ipeSample
      { sampleEnv with parse := some (⟨false⟩, 1), evalValue := ⟨true, 0⟩ }
      ⟨true, false, true⟩ sampleState ⟨false⟩ 1 (by decide) rfl (by decide) rfl rfl rfl rfl
      rfl rfl).1 rfl,
   (claim6_null_rejection ipeSample
      { sampleEnv with parse := some (⟨false⟩, 1), evalValue := ⟨true, 0⟩ }
      sampleSettings sampleState ⟨false⟩ 1 (by decide) rfl (by decide) rfl rfl rfl rfl
      rfl rfl).2 rfl⟩

/-- Claim C10: when `tryReadValue` catches a recoverable parse error it
restores the column buffer to its length at entry — popping the one
partially inserted value exactly when deserialization had already appended
it, i.e. when the failure came from the delimiter assertion after
insertion — and rolls the cursor back to the column's checkpoint, so the
fallback `parseExpression` always starts from the unmodified column and
the column's original byte position. -/
theorem claim10_rollback (ipe : ErrCode → Bool) (env : Env) (st : FmtSettings)
    (s : CState) (c : ErrCode) (readFlag : Bool) (n : Nat) (v : Value)
    (hnd : checkDefault s.buf = DefCheck.noMatch)
    (hassert : ipe ErrCode.CANNOT_PARSE_INPUT_ASSERTION_FAILED = true) :
    (env.deser = Except.error c → ipe c = true → c ≠ ErrCode.ARGUMENT_OUT_OF_BOUND →
      tryReadValue ipe env st s
        = parseExpression ipe env st
            { s with buf := s.buf.rollbackToCheckpoint,
                     trace := s.trace ++ [Ev.invokedDeserializer, Ev.fellBack] } ∧
      (s.buf.rollbackToCheckpoint).pos = s.buf.cp) ∧
    (env.deser = Except.ok (readFlag, n, v) →
      (checkDelimiterAfterValue s.isLastColumn (s.buf.advance n)).1 = false →
      tryReadValue ipe env st s
        = parseExpression ipe env st
            { s with column := (s.column ++ [v]).dropLast,
                     buf := (s.buf.advance n).rollbackToCheckpoint,
                     trace := (s.trace ++ [Ev.invokedDeserializer, Ev.appendedValue])
                              ++ [Ev.poppedValue, Ev.fellBack] } ∧
      (s.column ++ [v]).dropLast = s.column ∧
      ((s.buf.advance n).rollbackToCheckpoint).pos = s.buf.cp) := by
  constructor
  · intro hde h1 h2
    refine ⟨?_, by simp [PBuf.rollbackToCheckpoint]⟩
    unfold tryReadValue
    rw [hnd, hde]
    dsimp only
    rw [if_neg (by simp [h1, h2])]
  · intro hde hdelf
    refine ⟨?_, List.dropLast_concat, by simp [PBuf.advance, PBuf.rollbackToCheckpoint]⟩
    unfold tryReadValue
    rw [hnd, hde]
    dsimp only
    unfold afterValue
    dsimp only
    rw [hdelf, if_neg (by simp)]
    rw [if_neg (by simp [hassert])]

/-- Witness for the claim C10 theorem: a recoverable deserializer error
with nothing inserted, and a successful deserialization whose delimiter
assertion fails, both at a concrete streaming state. -/
theorem claim10_witness :
    (tryReadValue ipeSample { sampleEnv with deser := Except.error (ErrCode.other 2) }
        sampleSettings sampleState
      = parseExpression ipeSample { sampleEnv with deser := Except.error (ErrCode.other 2) }
          sampleSettings
          { sampleState with buf := sampleState.buf.rollbackToCheckpoint,
                             trace := [Ev.invokedDeserializer, Ev.fellBack] } ∧
      (sampleState.buf.rollbackToCheckpoint).pos = sampleState.buf.cp) ∧
    (tryReadValue ipeSample { sampleEnv with deser := Except.ok (true, 1, ⟨false, 3⟩) }
        sampleSettings { sampleState with buf := ⟨['1', 'x'], 0, 0⟩ }
      = parseExpression ipeSample { sampleEnv with deser := Except.ok (true, 1, ⟨false, 3⟩) }
          sampleSettings
          { sampleState with buf := ((⟨['1', 'x'], 0, 0⟩ : PBuf).advance 1).rollbackToCheckpoint,
                             column := (([] : List Value) ++ [(⟨false, 3⟩ : Value)]).dropLast,
                             trace := (([] : List Ev)
                                        ++ [Ev.invokedDeserializer, Ev.appendedValue])
                                      ++ [Ev.poppedValue, Ev.fellBack] } ∧
      (([] : List Value) ++ [(⟨false, 3⟩ : Value)]).dropLast = ([] : List Value) ∧
      (((⟨['1', 'x'], 0, 0⟩ : PBuf).advance 1).rollbackToCheckpoint).pos = 0) :=
  ⟨(claim10_rollback ipeSample { sampleEnv with deser := Except.error (ErrCode.other 2) }
      sampleSettings sampleState (ErrCode.other 2) true 0 ⟨false, 0⟩ (by decide) rfl).1
      rfl (by decide) (by decide),
   (claim10_rollback ipeSample { sampleEnv with deser := Except.ok (true, 1, ⟨false, 3⟩) }
      sampleSettings { sampleState with buf := ⟨['1', 'x'], 0, 0⟩ } (ErrCode.other 0) true 1
      ⟨false, 3⟩ (by decide) rfl).2 rfl (by decide)⟩

/-- Claim C3 (amended): a cell whose text is the case-insensitive literal
DEFAULT sets the cell's missing-mask bit and appends the column's default
value without invoking the literal deserializer or the expression parser —
regardless of the column's declared type — when the column is in
`Streaming` state, whose `tryReadValue` is the only place the DEFAULT
keyword is recognized; in the other strategy states the cell is handed to
the template or expression machinery instead (see the counterexample).
The result's trace, exactly one `insertedDefault` event, records that
neither the deserializer nor the expression parser ran. -/
theorem claim3_default_short_circuit (ipe : ErrCode → Bool) (env : Env) (st : FmtSettings)
    (s : CState) (b1 : PBuf)
    (hp : s.parserType = ParserType.Streaming)
    (hd : checkDefault s.buf.skipWs.setCheckpoint = DefCheck.isDefault b1)
    (hdel : (checkDelimiterAfterValue s.isLastColumn b1).1 = true) :
    readCell ipe env st s
      = PRes.ok false
          { s with buf := (checkDelimiterAfterValue s.isLastColumn b1).2,
                   column := s.column ++ [s.colType.defaultVal],
                   trace := s.trace ++ [Ev.insertedDefault] } ∧
    cellMissing (readCell ipe env st s) = true := by
  have step : readCell ipe env st s
      = PRes.ok false
          { s with buf := (checkDelimiterAfterValue s.isLastColumn b1).2,
                   column := s.column ++ [s.colType.defaultVal],
                   trace := s.trace ++ [Ev.insertedDefault] } := by
    unfold readCell
    dsimp only
    rw [hp]
    unfold tryReadValue
    dsimp only
    rw [hd]
    unfold afterValue
    dsimp only
    rw [hdel, if_pos rfl]
  exact ⟨step, by rw [step]; simp [cellMissing]⟩

/-- Claim C3 counterexample: with the column in
`SingleExpressionEvaluation` state, a cell whose bytes read `DEFAULT)` is
dispatched by `readRow` to `parseExpression`, which invokes the external
expression parser on the cell (the trace records the invocation), raises
`SYNTAX_ERROR` when that parser rejects the keyword, appends no default
value, and sets no missing-mask bit — refuting "regardless of the
column's current strategy state". -/
theorem claim3_counterexample :
    Ev.invokedExprParser ∈
      (readCell ipeSample sampleEnv sampleSettings
        { sampleState with parserType := ParserType.SingleExpressionEvaluation,
                           buf := ⟨['D', 'E', 'F', 'A', 'U', 'L', 'T', ')'], 0, 0⟩,
                           tokens := [Tok.Ident, Tok.ClosingRoundBracket] }).stateOf.trace ∧
    (readCell ipeSample sampleEnv sampleSettings
        { sampleState with parserType := ParserType.SingleExpressionEvaluation,
                           buf := ⟨['D', 'E', 'F', 'A', 'U', 'L', 'T', ')'], 0, 0⟩,
                           tokens := [Tok.Ident, Tok.ClosingRoundBracket] }).errCode
      = some ErrCode.SYNTAX_ERROR ∧
    (readCell ipeSample sampleEnv sampleSettings
        { sampleState with parserType := ParserType.SingleExpressionEvaluation,
                           buf := ⟨['D', 'E', 'F', 'A', 'U', 'L', 'T', ')'], 0, 0⟩,
                           tokens := [Tok.Ident, Tok.ClosingRoundBracket] }).stateOf.column
      = [] ∧
    cellMissing (readCell ipeSample sampleEnv sampleSettings
        { sampleState with parserType := ParserType.SingleExpressionEvaluation,
                           buf := ⟨['D', 'E', 'F', 'A', 'U', 'L', 'T', ')'], 0, 0⟩,
                           tokens := [Tok.Ident, Tok.ClosingRoundBracket] }) = false := by
  decide

/-- Witness for the amended claim C3 theorem: a streaming column whose
cell reads `default)` (case-insensitive) short-circuits to the column
default with the missing bit set. -/
theorem claim3_witness :
    readCell ipeSample sampleEnv sampleSettings
        { sampleState with buf := ⟨['d', 'e', 'f', 'a', 'u', 'l', 't', ')'], 0, 0⟩ }
      = PRes.ok false
          { { sampleState with buf := ⟨['d', 'e', 'f', 'a', 'u', 'l', 't', ')'], 0, 0⟩ } with
              buf := (checkDelimiterAfterValue
                ({ sampleState with
                    buf := ⟨['d', 'e', 'f', 'a', 'u', 'l', 't', ')'], 0, 0⟩ } : CState).isLastColumn
                (⟨['d', 'e', 'f', 'a', 'u', 'l', 't', ')'], 7, 0⟩ : PBuf)).2,
              column := [] ++ [sampleColType.defaultVal],
              trace := [] ++ [Ev.insertedDefault] } ∧
    cellMissing (readCell ipeSample sampleEnv sampleSettings
        { sampleState with buf := ⟨['d', 'e', 'f', 'a', 'u', 'l', 't', ')'], 0, 0⟩ }) = true :=
  claim3_default_short_circuit ipeSample sampleEnv sampleSettings
    { sampleState with buf := ⟨['d', 'e', 'f', 'a', 'u', 'l', 't', ')'], 0, 0⟩ }
    ⟨['d', 'e', 'f', 'a', 'u', 'l', 't', ')'], 7, 0⟩ rfl (by decide) (by decide)

/-- Claim C1: in `BatchTemplate` state, when the current row's expression
fails the established template's `parseExpression`, all parameter bindings
accumulated for the column are evaluated and appended to the column buffer
before anything the current row produces, the template is discarded — any
template present after the fallback is a freshly deduced one holding only
the current row's binding, never the discarded one — and parsing of the
current row falls back to the full-expression path (`parseExpression` on
the rolled-back cursor). -/
theorem claim1_template_flush (ipe : ErrCode → Bool) (env : Env) (st : FmtSettings)
    (s : CState) (t : Template)
    (htok : tokenOk s = true)
    (ht : s.template = some t)
    (hm : env.templMatch = false) :
    tryParseExpressionUsingTemplate ipe env st s
      = parseExpression ipe env st
          { s with column := if s.column = [] then t.pending else s.column ++ t.pending,
                   template := none, buf := s.buf.rollbackToCheckpoint } ∧
    (if s.column = [] then t.pending else s.column ++ t.pending) = s.column ++ t.pending ∧
    (∃ tail, (tryParseExpressionUsingTemplate ipe env st s).stateOf.column
        = (s.column ++ t.pending) ++ tail) ∧
    ((tryParseExpressionUsingTemplate ipe env st s).stateOf.template = none ∨
     (tryParseExpressionUsingTemplate ipe env st s).stateOf.template
        = some ⟨[env.boundValue]⟩) := by
  have h2 : (if s.column = [] then t.pending else s.column ++ t.pending)
      = s.column ++ t.pending := by
    by_cases hc : s.column = []
    · rw [if_pos hc, hc]
      simp
    · rw [if_neg hc]
  have h1 : tryParseExpressionUsingTemplate ipe env st s
      = parseExpression ipe env st
          { s with column := if s.column = [] then t.pending else s.column ++ t.pending,
                   template := none, buf := s.buf.rollbackToCheckpoint } := by
    unfold tryParseExpressionUsingTemplate
    rw [htok, if_neg (by simp), ht]
    dsimp only
    rw [hm, if_neg (by simp)]
  obtain ⟨⟨tail, htail⟩, htmp⟩ := parseExpression_extends ipe env st
    { s with column := if s.column = [] then t.pending else s.column ++ t.pending,
             template := none, buf := s.buf.rollbackToCheckpoint }
  refine ⟨h1, h2, ⟨tail, ?_⟩, ?_⟩
  · rw [h1, htail]
    dsimp only
    rw [h2]
  · rw [h1]
    exact htmp rfl

/-- Witness for the claim C1 theorem at a concrete state: a template with
two accumulated bindings whose match fails on the current row; the
accumulated values are flushed into the column ahead of the fallback. -/
theorem claim1_witness :
    tryParseExpressionUsingTemplate ipeSample sampleEnv sampleSettings
        { sampleState with parserType := ParserType.BatchTemplate,
                           template := some ⟨[⟨false, 1⟩, ⟨false, 2⟩]⟩ }
      = parseExpression ipeSample sampleEnv sampleSettings
          { sampleState with parserType := ParserType.BatchTemplate, template := none,
                             column := [⟨false, 1⟩, ⟨false, 2⟩],
                             buf := ⟨['1', ')'], 0, 0⟩ } ∧
    ([(⟨false, 1⟩ : Value), ⟨false, 2⟩] : List Value)
      = [⟨false, 1⟩, ⟨false, 2⟩] ∧
    (∃ tail, (tryParseExpressionUsingTemplate ipeSample sampleEnv sampleSettings
        { sampleState with parserType := ParserType.BatchTemplate,
                           template := some ⟨[⟨false, 1⟩, ⟨false, 2⟩]⟩ }).stateOf.column
        = [(⟨false, 1⟩ : Value), ⟨false, 2⟩] ++ tail) ∧
    ((tryParseExpressionUsingTemplate ipeSample sampleEnv sampleSettings
        { sampleState with parserType := ParserType.BatchTemplate,
                           template := some ⟨[⟨false, 1⟩, ⟨false, 2⟩]⟩ }).stateOf.template
        = none ∨
     (tryParseExpressionUsingTemplate ipeSample sampleEnv sampleSettings
        { sampleState with parserType := ParserType.BatchTemplate,
                           template := some ⟨[⟨false, 1⟩, ⟨false, 2⟩]⟩ }).stateOf.template
        = some ⟨[sampleEnv.boundValue]⟩) :=
  claim1_template_flush ipeSample sampleEnv sampleSettings
    { sampleState with parserType := ParserType.BatchTemplate,
                       template := some ⟨[⟨false, 1⟩, ⟨false, 2⟩]⟩ }
    ⟨[⟨false, 1⟩, ⟨false, 2⟩]⟩ (by decide) rfl rfl

end VBF
